import Mathlib

/-!
Verification of the KYC query-engine core (`workspace/kyc_tools/kyc_data_tools.py`):
the record store, the character n-gram tokenizer `char_ngrams`, the per-field
BM25 ranking indexes built in `KYCQueryEngine.__post_init__`, and the query
API (`query_bm25`, `query_unique_id`).

Modelling conventions:
* Python strings are `List Char`; `str.lower` is `Char.toLower` mapped.
* Python dicts are association lists with first-match lookup; insertion
  keeps key order and overwrites in place, as CPython dicts do.
* The external `rank_bm25.BM25Okapi` class is embedded field by field from
  its source, with exact rational arithmetic in place of float64 and the
  transcendental `math.log` as an explicit function parameter `log`
  (none of the proved properties depend on the values of `log`).
* numpy's `ndarray.argsort` is modelled as the stable ascending sort of
  indices (ties in index order), which is numpy's behaviour on the small
  arrays used here (insertion sort); Python's `a[-k:]` slice and `[::-1]`
  reversal are modelled exactly.
* Python exceptions (`ValueError`, `ZeroDivisionError`) become `Except` /
  `Option` results: a construction that would raise yields `none`.
-/

namespace KYC

/-- Python/JSON scalar values that can sit in a KYC record field. -/
inductive Value where
  | vStr : List Char → Value
  | vInt : Int → Value
  | vBool : Bool → Value
  | vNull : Value
deriving DecidableEq, Repr

/-- A record is a Python dict from field name to value (keys unique in
practice; lookup takes the first binding, as dict lookup does). -/
abbrev Record := List (String × Value)

/-- Python `str(v)` for the value variants above. -/
def pyStr : Value → List Char
  | .vStr s => s
  | .vInt n => (toString n).toList
  | .vBool b => if b then "True".toList else "False".toList
  | .vNull => "None".toList

/-- Python `record.get(field)`: `None` (here `none`) when the key is absent. -/
def recordGet? (r : Record) (field : String) : Option Value :=
  (r.find? (fun p => p.1 == field)).map Prod.snd

/-- Python `record.get(field, dflt)`. -/
def recordGetD (r : Record) (field : String) (dflt : Value) : Value :=
  (recordGet? r field).getD dflt

/-- The tokenizer `char_ngrams(text, n)` from `kyc_data_tools.py`:
lowercases `text`, then takes every slice `text[i : i + n]` for
`i in range(len(text) - n + 1)` (an empty range when `len(text) < n`,
because Python's `range` of a negative bound is empty). -/
def char_ngrams (text : List Char) (n : Nat) : List (List Char) :=
  let t := text.map Char.toLower
  (List.range ((t.length : Int) - (n : Int) + 1).toNat).map (fun i => (t.drop i).take n)

/-- Association-list lookup standing for Python `dict.get(k)`. -/
def alGet? {β : Type} (d : List (String × β)) (k : String) : Option β :=
  (d.find? (fun p => p.1 == k)).map Prod.snd

/-- Association-list lookup for token-keyed dicts. -/
def tGet? {β : Type} (d : List (List Char × β)) (k : List Char) : Option β :=
  (d.find? (fun p => p.1 == k)).map Prod.snd

/-- Python `d[k] = v` on a string-keyed dict: overwrite the binding in
place if the key exists, else append (CPython preserves insertion order). -/
def alInsert {β : Type} (d : List (String × β)) (k : String) (v : β) : List (String × β) :=
  match d with
  | [] => [(k, v)]
  | p :: rest => if p.1 == k then (k, v) :: rest else p :: alInsert rest k v

/-- Python `d[k] = v` on a token-keyed dict. -/
def tInsert {β : Type} (d : List (List Char × β)) (k : List Char) (v : β) :
    List (List Char × β) :=
  match d with
  | [] => [(k, v)]
  | p :: rest => if p.1 == k then (k, v) :: rest else p :: tInsert rest k v

/-- Key list of a dict, in insertion order (Python `list(d.keys())`). -/
def alKeys {β : Type} (d : List (String × β)) : List String := d.map Prod.fst

/-! The BM25Okapi ranking structure (external library `rank_bm25`),
embedded from its source. Constants of `BM25Okapi.__init__`:
`k1 = 1.5`, `b = 0.75`, `epsilon = 0.25`. -/

/-- BM25 term-frequency saturation constant `k1 = 1.5`. -/
def bm25_k1 : ℚ := 3 / 2

/-- BM25 length-normalization constant `b = 0.75`. -/
def bm25_b : ℚ := 3 / 4

/-- BM25 negative-idf floor constant `epsilon = 0.25`. -/
def bm25_epsilon : ℚ := 1 / 4

/-- The per-document frequency dict built by `BM25._initialize`:
`frequencies[word] += 1` over the document's tokens, in token order. -/
def tokenFreqs (document : List (List Char)) : List (List Char × Nat) :=
  document.foldl (fun freqs word => tInsert freqs word (((tGet? freqs word).getD 0) + 1)) []

/-- One step of building `nd` (documents-containing-word counts) in
`BM25._initialize`: `nd[word] += 1` for each distinct word of one document. -/
def ndAccum (nd : List (List Char × Nat)) (freqs : List (List Char × Nat)) :
    List (List Char × Nat) :=
  freqs.foldl (fun acc p => tInsert acc p.1 (((tGet? acc p.1).getD 0) + 1)) nd

/-- State of a built `BM25Okapi` instance. -/
structure BM25Okapi where
  corpus_size : Nat
  avgdl : ℚ
  doc_freqs : List (List (List Char × Nat))
  idf : List (List Char × ℚ)
  doc_len : List Nat
deriving DecidableEq, Repr

/-- Construction `BM25Okapi(corpus)`: `_initialize` collects `doc_len`,
`doc_freqs` and `nd`, sets `avgdl = num_doc / corpus_size` (a
`ZeroDivisionError`, hence `none`, on an empty corpus), and `_calc_idf`
computes `idf[w] = log(corpus_size - nd[w] + 0.5) - log(nd[w] + 0.5)`,
replacing negative idfs by `epsilon * average_idf` (a `ZeroDivisionError`,
hence `none`, when no document has any token). -/
def BM25Okapi.build (log : ℚ → ℚ) (corpus : List (List (List Char))) : Option BM25Okapi :=
  let doc_len := corpus.map List.length
  let num_doc := doc_len.sum
  let corpus_size := corpus.length
  let doc_freqs := corpus.map tokenFreqs
  let nd := doc_freqs.foldl ndAccum []
  if corpus_size = 0 then none
  else
    let avgdl : ℚ := (num_doc : ℚ) / (corpus_size : ℚ)
    if nd.length = 0 then none
    else
      let idf0 := nd.map (fun p =>
        (p.1, log ((corpus_size : ℚ) - (p.2 : ℚ) + 1 / 2) - log ((p.2 : ℚ) + 1 / 2)))
      let average_idf := (idf0.map Prod.snd).sum / (idf0.length : ℚ)
      let eps := bm25_epsilon * average_idf
      let idf := idf0.map (fun p => if p.2 < 0 then (p.1, eps) else p)
      some ⟨corpus_size, avgdl, doc_freqs, idf, doc_len⟩

/-- The score `BM25Okapi.get_scores` assigns to document `i`: the sum over
the query's tokens `q` (in order, with multiplicity) of
`idf[q] * q_freq * (k1 + 1) / (q_freq + k1 * (1 - b + b * doc_len[i] / avgdl))`,
with `idf.get(q) or 0` and `doc.get(q) or 0` as in the source. -/
def BM25Okapi.scoreDoc (s : BM25Okapi) (query : List (List Char)) (i : Nat) : ℚ :=
  query.foldl (fun acc q =>
    let q_freq : ℚ := ((tGet? (s.doc_freqs.getD i []) q).getD 0 : Nat)
    let idf_q : ℚ := (tGet? s.idf q).getD 0
    acc + idf_q * (q_freq * (bm25_k1 + 1) /
      (q_freq + bm25_k1 * (1 - bm25_b + bm25_b * (s.doc_len.getD i 0 : ℚ) / s.avgdl)))) 0

/-- `BM25Okapi.get_scores(query)`: one score per document, in document order. -/
def BM25Okapi.get_scores (s : BM25Okapi) (query : List (List Char)) : List ℚ :=
  (List.range s.corpus_size).map (s.scoreDoc query)

/-! The search pipeline of `query_bm25`:
`scores.argsort()[-top_n:][::-1]` over numpy's float array of scores. -/

/-- The comparison numpy's ascending argsort realizes on indices, with ties
broken by index (stable order): lexicographic on (score, index). -/
def argRel (scores : List ℚ) (i j : Nat) : Prop :=
  scores.getD i 0 < scores.getD j 0 ∨ (scores.getD i 0 = scores.getD j 0 ∧ i ≤ j)

instance argRelDecidable (scores : List ℚ) : DecidableRel (argRel scores) := fun i j => by
  unfold argRel; infer_instance

/-- numpy `scores.argsort()`: index permutation putting scores in ascending
order, equal scores kept in index order (the stable outcome numpy's
insertion sort produces on small arrays). -/
def argsort (scores : List ℚ) : List Nat :=
  List.insertionSort (argRel scores) (List.range scores.length)

/-- Python `a[-k:]` for a nonnegative `k`: the suffix of length
`min k (length a)` when `k ≥ 1`, the whole list when `k = 0`
(since `a[-0:]` is `a[0:]`). -/
def pyLastSlice {α : Type} (l : List α) (k : Nat) : List α :=
  if k = 0 then l else l.drop (l.length - k)

/-! The query engine `KYCQueryEngine` itself. -/

/-- The field of `KYCQueryEngine` state: dataclass fields plus the
`field_indexes` dict filled by `__post_init__`. -/
structure KYCQueryEngine where
  data : List Record
  text_fields_to_index : List String
  ngram_size : Nat
  unique_id_field : Option String
  field_indexes : List (String × BM25Okapi)
deriving Repr

/-- The stringified per-record corpus `__post_init__` extracts for one
field: `[str(doc.get(field, "")) for doc in self.data]`. -/
def fieldCorpus (data : List Record) (field : String) : List (List Char) :=
  data.map (fun doc => pyStr (recordGetD doc field (.vStr [])))

/-- The tokenized corpus `__post_init__` feeds to `BM25Okapi` for one field:
`[char_ngrams(doc, 2) for doc in corpus]` — note the hardcoded shingle
length `2`, taken verbatim from the source (not `self.ngram_size`). -/
def buildTokCorpus (data : List Record) (field : String) : List (List (List Char)) :=
  (fieldCorpus data field).map (fun doc => char_ngrams doc 2)

/-- The loop of `__post_init__` over `text_fields_to_index`, threading the
`field_indexes` dict; `none` when some `BM25Okapi` construction raises. -/
def buildIndexesAux (log : ℚ → ℚ) (data : List Record)
    (acc : List (String × BM25Okapi)) : List String → Option (List (String × BM25Okapi))
  | [] => some acc
  | field :: rest =>
    match BM25Okapi.build log (buildTokCorpus data field) with
    | none => none
    | some idx => buildIndexesAux log data (alInsert acc field idx) rest

/-- Dataclass construction of `KYCQueryEngine` followed by `__post_init__`
(the only way an engine comes into existence, also via `from_json_lines`);
`none` when `__post_init__` raises. -/
def engineInit (log : ℚ → ℚ) (data : List Record) (text_fields_to_index : List String)
    (ngram_size : Nat) (unique_id_field : Option String) : Option KYCQueryEngine :=
  (buildIndexesAux log data [] text_fields_to_index).map
    (fun fi => ⟨data, text_fields_to_index, ngram_size, unique_id_field, fi⟩)

/-- A field name rendered inside Python's `repr` of a list of strings. -/
def quoteKey (k : String) : List Char := '\'' :: (k.toList ++ ['\''])

/-- Python's rendering of `list(d.keys())` contents: quoted names joined
by a comma and a space. -/
def renderItems : List String → List Char
  | [] => []
  | [k] => quoteKey k
  | k :: ks => quoteKey k ++ (", ".toList) ++ renderItems ks

/-- The message of the `ValueError` raised by `query_bm25` on a
non-indexed field, built exactly as the source's f-string renders it. -/
def fieldErrMsg (query_field : String) (keys : List String) : List Char :=
  ("Field '".toList) ++ query_field.toList ++ ("' is not indexed. Available fields: [".toList)
    ++ renderItems keys ++ [']']

/-- The score vector `query_bm25` computes: the configured field's index
scored against `char_ngrams(text, self.ngram_size)`; empty when the field
has no index (that branch raises before scoring). -/
def queryScores (e : KYCQueryEngine) (text : List Char) (query_field : String) : List ℚ :=
  match alGet? e.field_indexes query_field with
  | none => []
  | some index => index.get_scores (char_ngrams text e.ngram_size)

/-- The record indices `query_bm25` selects:
`scores.argsort()[-top_n:][::-1]`. -/
def resultIndices (e : KYCQueryEngine) (text : List Char) (query_field : String)
    (top_n : Nat) : List Nat :=
  (pyLastSlice (argsort (queryScores e text query_field)) top_n).reverse

/-- `KYCQueryEngine.query_bm25(text, query_field, top_n)`: `ValueError`
with a field-listing message when the field is not indexed, otherwise the
records `[self.data[i] for i in top_n_indices]`. -/
def query_bm25 (e : KYCQueryEngine) (text : List Char) (query_field : String)
    (top_n : Nat) : Except (List Char) (List Record) :=
  if (alGet? e.field_indexes query_field).isSome then
    .ok ((resultIndices e text query_field top_n).map (fun i => e.data.getD i []))
  else
    .error (fieldErrMsg query_field (alKeys e.field_indexes))

/-- The message of the `ValueError` raised by `query_unique_id` when no
unique-id field is configured. -/
def uidErrMsg : List Char := "Unique ID field is not set.".toList

/-- Python's `record.get(field) == unique_id_value` where `unique_id_value`
is a `str`: true exactly when the field holds a string with that content
(`None`, ints and bools never compare equal to a string). -/
def valueEqStr : Option Value → List Char → Bool
  | some (.vStr s), v => s == v
  | _, _ => false

/-- `KYCQueryEngine.query_unique_id(unique_id_value)`: `ValueError` when no
unique-id field is set, else the first record (in load order) whose raw
field value equals the key string, or `none`. -/
def query_unique_id (e : KYCQueryEngine) (unique_id_value : List Char) :
    Except (List Char) (Option Record) :=
  match e.unique_id_field with
  | none => .error uidErrMsg
  | some f => .ok (e.data.find? (fun r => valueEqStr (recordGet? r f) unique_id_value))

/-- Modelled from the spec: the `lookup` of section 4.3/4.1 compares the
unique-key field's STRINGIFIED values (absent values as the empty string)
against the key value; stated here only to compare with the source's
`query_unique_id`, which compares raw values. -/
def specLookupStringified (data : List Record) (f : String) (v : List Char) : Option Record :=
  data.find? (fun r => pyStr (recordGetD r f (.vStr [])) == v)

/-! Concrete inputs used in the counterexample and witness theorems below. -/

/-- A degenerate model of `math.log` (every property proved below holds for
every `log`; concrete runs pick a definite one). -/
def log0 : ℚ → ℚ := fun _ => 0

/-- Record with name "ann". -/
def recAnn : Record := [("name", Value.vStr ['a', 'n', 'n'])]

/-- Record with name "bob". -/
def recBob : Record := [("name", Value.vStr ['b', 'o', 'b'])]

/-- Two-record dataset. -/
def data2 : List Record := [recAnn, recBob]

/-- First of two records with identical indexed text but distinct payloads. -/
def recT1 : Record := [("name", Value.vStr ['a', 'n', 'n']), ("v", Value.vInt 1)]

/-- Second of two records with identical indexed text but distinct payloads. -/
def recT2 : Record := [("name", Value.vStr ['a', 'n', 'n']), ("v", Value.vInt 2)]

/-- Record whose id field holds the integer 42 (not the string "42"). -/
def rec42 : Record := [("id", Value.vInt 42)]

/-- One-record dataset with name "abc". -/
def dataAbc : List Record := [[("name", Value.vStr ['a', 'b', 'c'])]]

/-- Identity stand-in for `math.log` in runs where idf values should be
visibly nonzero. -/
def logId : ℚ → ℚ := fun q => q

/-- Tie dataset: two records with identical indexed text, distinct payloads. -/
def dataT : List Record := [recT1, recT2]

/-- The BM25 state `__post_init__` builds for field "name" over `data2`
with `log0` (idf values all zero). -/
def bm25Ann : BM25Okapi :=
  ⟨2, 2,
   [[(['a', 'n'], 1), (['n', 'n'], 1)], [(['b', 'o'], 1), (['o', 'b'], 1)]],
   [(['a', 'n'], 0), (['n', 'n'], 0), (['b', 'o'], 0), (['o', 'b'], 0)],
   [2, 2]⟩

/-- The engine `KYCQueryEngine(data2, ["name"], 2, None)` builds with `log0`. -/
def engine2 : KYCQueryEngine := ⟨data2, ["name"], 2, none, [("name", bm25Ann)]⟩

/-- The BM25 state for field "name" over `dataT` with `log0`. -/
def bm25T : BM25Okapi :=
  ⟨2, 2,
   [[(['a', 'n'], 1), (['n', 'n'], 1)], [(['a', 'n'], 1), (['n', 'n'], 1)]],
   [(['a', 'n'], 0), (['n', 'n'], 0)],
   [2, 2]⟩

/-- The engine `KYCQueryEngine(dataT, ["name"], 2, None)` builds with `log0`. -/
def engineT : KYCQueryEngine := ⟨dataT, ["name"], 2, none, [("name", bm25T)]⟩

/-- The engine for `[rec42]` with no indexed fields and unique id field "id". -/
def engine42 : KYCQueryEngine := ⟨[rec42], [], 2, some "id", []⟩

/-- An engine with no indexed fields and no unique id field. -/
def engine0 : KYCQueryEngine := ⟨data2, [], 2, none, []⟩

/-- An engine over `[recAnn]` with unique id field "name". -/
def engineStr : KYCQueryEngine := ⟨[recAnn], [], 2, some "name", []⟩

/-- The BM25 state `__post_init__` builds for field "name" over `dataAbc`
with `logId`: the 3-character text yields the two shingles "ab", "bc" of
the hardcoded length 2, each with idf `-1/4` after the epsilon floor. -/
def bm25Abc : BM25Okapi :=
  ⟨1, 2,
   [[(['a', 'b'], 1), (['b', 'c'], 1)]],
   [(['a', 'b'], -1 / 4), (['b', 'c'], -1 / 4)],
   [2]⟩

/-- The engine `KYCQueryEngine(dataAbc, ["name"], ngram_size=3, None)`
builds with `logId`. -/
def engineAbc3 : KYCQueryEngine := ⟨dataAbc, ["name"], 3, none, [("name", bm25Abc)]⟩

/-- The engine `KYCQueryEngine(dataAbc, ["name"], ngram_size=2, None)`
builds with `logId`. -/
def engineAbc2 : KYCQueryEngine := ⟨dataAbc, ["name"], 2, none, [("name", bm25Abc)]⟩

end KYC

namespace KYC

theorem alGet?_alInsert_self {β : Type} (d : List (String × β)) (k : String) (v : β) :
    alGet? (alInsert d k v) k = some v := by
  induction d with
  | nil => simp [alInsert, alGet?, List.find?_cons]
  | cons p d ih =>
    by_cases hp : (p.1 == k) = true
    · simp [alInsert, alGet?, List.find?_cons, hp]
    · have hp' : (p.1 == k) = false := by rwa [Bool.not_eq_true] at hp
      simpa [alInsert, alGet?, List.find?_cons, hp'] using ih

theorem alGet?_alInsert_ne {β : Type} (d : List (String × β)) (k k' : String) (v : β)
    (hne : k' ≠ k) : alGet? (alInsert d k v) k' = alGet? d k' := by
  have hkk : ((k : String) == k') = false := by
    rw [Bool.eq_false_iff]; intro hc; exact hne (beq_iff_eq.mp hc).symm
  induction d with
  | nil => simp [alInsert, alGet?, List.find?_cons, hkk]
  | cons p d ih =>
    by_cases hp : (p.1 == k) = true
    · have hk : p.1 = k := beq_iff_eq.mp hp
      have h2 : (p.1 == k') = false := by rw [hk]; exact hkk
      simp [alInsert, alGet?, List.find?_cons, hkk, h2, hp]
    · have hp' : (p.1 == k) = false := by rwa [Bool.not_eq_true] at hp
      by_cases hq : (p.1 == k') = true
      · simp [alInsert, alGet?, List.find?_cons, hp', hq]
      · have hq' : (p.1 == k') = false := by rwa [Bool.not_eq_true] at hq
        simpa [alInsert, alGet?, List.find?_cons, hp', hq'] using ih

theorem mem_alInsert {β : Type} (d : List (String × β)) (k : String) (v : β)
    (p : String × β) (hp : p ∈ alInsert d k v) : p ∈ d ∨ p = (k, v) := by
  induction d with
  | nil =>
    simp [alInsert] at hp
    exact Or.inr hp
  | cons q d ih =>
    unfold alInsert at hp
    split at hp
    · rcases List.mem_cons.mp hp with h | h
      · exact Or.inr h
      · exact Or.inl (List.mem_cons_of_mem _ h)
    · rcases List.mem_cons.mp hp with h | h
      · exact Or.inl (h ▸ List.mem_cons_self _ _)
      · rcases ih h with h' | h'
        · exact Or.inl (List.mem_cons_of_mem _ h')
        · exact Or.inr h'

theorem alGet?_isSome_alInsert {β : Type} (d : List (String × β)) (k k' : String) (v : β) :
    (alGet? (alInsert d k v) k').isSome = true ↔ (alGet? d k').isSome = true ∨ k' = k := by
  by_cases h : k' = k
  · subst h
    simp [alGet?_alInsert_self]
  · rw [alGet?_alInsert_ne d k k' v h]
    simp [h]

end KYC

namespace KYC

theorem BM25Okapi.build_corpus_size {log : ℚ → ℚ} {corpus : List (List (List Char))}
    {s : BM25Okapi} (h : BM25Okapi.build log corpus = some s) :
    s.corpus_size = corpus.length := by
  unfold BM25Okapi.build at h
  by_cases h0 : corpus.length = 0
  · rw [if_pos h0] at h
    exact absurd h (by simp)
  · rw [if_neg h0] at h
    by_cases h1 : (List.foldl ndAccum [] (List.map tokenFreqs corpus)).length = 0
    · rw [if_pos h1] at h
      exact absurd h (by simp)
    · rw [if_neg h1] at h
      cases h
      rfl

theorem engineInit_fields {log : ℚ → ℚ} {data : List Record} {fields : List String}
    {ngram_size : Nat} {uid : Option String} {e : KYCQueryEngine}
    (h : engineInit log data fields ngram_size uid = some e) :
    e.data = data ∧ e.text_fields_to_index = fields ∧ e.ngram_size = ngram_size ∧
      e.unique_id_field = uid ∧
      buildIndexesAux log data [] fields = some e.field_indexes := by
  unfold engineInit at h
  cases hb : buildIndexesAux log data [] fields with
  | none =>
    rw [hb] at h
    exact absurd h (by simp)
  | some fi =>
    rw [hb] at h
    simp only [Option.map_some'] at h
    cases h
    exact ⟨rfl, rfl, rfl, rfl, rfl⟩

end KYC

namespace KYC

theorem alGet?_eq_some_mem {β : Type} {d : List (String × β)} {k : String} {v : β}
    (h : alGet? d k = some v) : (k, v) ∈ d := by
  induction d with
  | nil => simp [alGet?] at h
  | cons p rest ih =>
    obtain ⟨a, b⟩ := p
    unfold alGet? at h
    rw [List.find?_cons] at h
    by_cases hbeq : (((a, b) : String × β).1 == k) = true
    · rw [hbeq] at h
      have hv : b = v := by simpa using h
      have hk2 : a = k := beq_iff_eq.mp hbeq
      rw [hk2, hv]
      exact List.mem_cons_self _ _
    · have hb' : (((a, b) : String × β).1 == k) = false := by
        rwa [Bool.not_eq_true] at hbeq
      rw [hb'] at h
      exact List.mem_cons_of_mem _ (ih h)

theorem buildTokCorpus_length (data : List Record) (field : String) :
    (buildTokCorpus data field).length = data.length := by
  simp [buildTokCorpus, fieldCorpus]

theorem buildIndexesAux_corpus_size {log : ℚ → ℚ} {data : List Record}
    {acc out : List (String × BM25Okapi)} {fields : List String}
    (h : buildIndexesAux log data acc fields = some out)
    (hacc : ∀ p : String × BM25Okapi, p ∈ acc → p.2.corpus_size = data.length) :
    ∀ p : String × BM25Okapi, p ∈ out → p.2.corpus_size = data.length := by
  induction fields generalizing acc with
  | nil =>
    cases h
    exact hacc
  | cons field rest ih =>
    unfold buildIndexesAux at h
    split at h
    · exact absurd h (by simp)
    · next idx hidx =>
      refine ih h ?_
      intro p hp
      rcases mem_alInsert _ _ _ _ hp with h' | h'
      · exact hacc p h'
      · rw [h']
        rw [BM25Okapi.build_corpus_size hidx, buildTokCorpus_length]

theorem buildIndexesAux_isSome_iff {log : ℚ → ℚ} {data : List Record}
    {acc out : List (String × BM25Okapi)} {fields : List String}
    (h : buildIndexesAux log data acc fields = some out) (k : String) :
    (alGet? out k).isSome = true ↔ (alGet? acc k).isSome = true ∨ k ∈ fields := by
  induction fields generalizing acc with
  | nil =>
    cases h
    constructor
    · exact Or.inl
    · rintro (h' | h')
      · exact h'
      · exact absurd h' (List.not_mem_nil k)
  | cons field rest ih =>
    unfold buildIndexesAux at h
    split at h
    · exact absurd h (by simp)
    · next idx hidx =>
      rw [ih h, alGet?_isSome_alInsert]
      simp only [List.mem_cons]
      tauto

theorem engineInit_indexed_iff {log : ℚ → ℚ} {data : List Record} {fields : List String}
    {ngram_size : Nat} {uid : Option String} {e : KYCQueryEngine}
    (h : engineInit log data fields ngram_size uid = some e) (k : String) :
    (alGet? e.field_indexes k).isSome = true ↔ k ∈ fields := by
  obtain ⟨-, -, -, -, hb⟩ := engineInit_fields h
  rw [buildIndexesAux_isSome_iff hb k]
  simp [alGet?]

theorem engineInit_corpus_size {log : ℚ → ℚ} {data : List Record} {fields : List String}
    {ngram_size : Nat} {uid : Option String} {e : KYCQueryEngine} {k : String}
    {idx : BM25Okapi} (h : engineInit log data fields ngram_size uid = some e)
    (hk : alGet? e.field_indexes k = some idx) : idx.corpus_size = data.length := by
  obtain ⟨-, -, -, -, hb⟩ := engineInit_fields h
  have hmem : (k, idx) ∈ e.field_indexes := alGet?_eq_some_mem hk
  exact buildIndexesAux_corpus_size hb
    (fun p hp => absurd hp (List.not_mem_nil p)) _ hmem

theorem get_scores_length (s : BM25Okapi) (query : List (List Char)) :
    (s.get_scores query).length = s.corpus_size := by
  simp [BM25Okapi.get_scores]

theorem queryScores_length {log : ℚ → ℚ} {data : List Record} {fields : List String}
    {ngram_size : Nat} {uid : Option String} {e : KYCQueryEngine}
    (h : engineInit log data fields ngram_size uid = some e) {query_field : String}
    (hf : query_field ∈ fields) (text : List Char) :
    (queryScores e text query_field).length = e.data.length := by
  have hsome : (alGet? e.field_indexes query_field).isSome = true :=
    (engineInit_indexed_iff h query_field).mpr hf
  cases hidx : alGet? e.field_indexes query_field with
  | none => rw [hidx] at hsome; exact absurd hsome (by simp)
  | some idx =>
    unfold queryScores
    rw [hidx]
    rw [get_scores_length, engineInit_corpus_size h hidx, (engineInit_fields h).1]

end KYC

namespace KYC

theorem char_toNat_ofNat_valid {n : Nat} (h : n.isValidChar) : (Char.ofNat n).toNat = n := by
  unfold Char.ofNat
  rw [dif_pos h]
  rfl

theorem char_toLower_toLower (c : Char) : c.toLower.toLower = c.toLower := by
  unfold Char.toLower
  dsimp only
  split
  · next h =>
    have hv : Nat.isValidChar (c.toNat + 32) := by
      unfold Nat.isValidChar; omega
    rw [if_neg]
    rw [char_toNat_ofNat_valid hv]
    omega
  · next h => rfl

theorem char_ngrams_length (text : List Char) (n : Nat) :
    (char_ngrams text n).length = ((text.length : Int) - (n : Int) + 1).toNat := by
  simp [char_ngrams]

theorem char_ngrams_length_of_le (text : List Char) (n : Nat) (h : n ≤ text.length) :
    (char_ngrams text n).length = text.length - n + 1 := by
  rw [char_ngrams_length]; omega

theorem char_ngrams_eq_nil_of_lt (text : List Char) (n : Nat) (h : text.length < n) :
    char_ngrams text n = [] := by
  have : ((text.length : Int) - (n : Int) + 1).toNat = 0 := by omega
  simp [char_ngrams, this]

theorem char_ngrams_getD (text : List Char) (n : Nat) (i : Nat)
    (h : i < ((text.length : Int) - (n : Int) + 1).toNat) :
    (char_ngrams text n).getD i [] = ((text.map Char.toLower).drop i).take n := by
  simp only [char_ngrams, List.getD_eq_getElem?_getD, List.getElem?_map]
  rw [List.getElem?_range]
  · rfl
  · simpa using h

theorem char_ngrams_lower (text : List Char) (n : Nat) :
    char_ngrams (text.map Char.toLower) n = char_ngrams text n := by
  simp only [char_ngrams, List.map_map]
  have : (Char.toLower ∘ Char.toLower) = Char.toLower := by
    funext c; exact char_toLower_toLower c
  rw [this]

instance argRelTotal (scores : List ℚ) : IsTotal Nat (argRel scores) where
  total i j := by
    unfold argRel
    rcases lt_trichotomy (scores.getD i 0) (scores.getD j 0) with h | h | h
    · exact Or.inl (Or.inl h)
    · rcases Nat.le_total i j with hij | hij
      · exact Or.inl (Or.inr ⟨h, hij⟩)
      · exact Or.inr (Or.inr ⟨h.symm, hij⟩)
    · exact Or.inr (Or.inl h)

instance argRelTrans (scores : List ℚ) : IsTrans Nat (argRel scores) where
  trans i j k := by
    unfold argRel
    rintro (h₁ | ⟨h₁, hij⟩) (h₂ | ⟨h₂, hjk⟩)
    · exact Or.inl (h₁.trans h₂)
    · exact Or.inl (h₂ ▸ h₁)
    · exact Or.inl (h₁ ▸ h₂)
    · exact Or.inr ⟨h₁.trans h₂, hij.trans hjk⟩

theorem argsort_perm (scores : List ℚ) : (argsort scores).Perm (List.range scores.length) :=
  List.perm_insertionSort _ _

theorem argsort_length (scores : List ℚ) : (argsort scores).length = scores.length := by
  simpa using (argsort_perm scores).length_eq

theorem argsort_nodup (scores : List ℚ) : (argsort scores).Nodup :=
  ((argsort_perm scores).nodup_iff).mpr (List.nodup_range _)

theorem argsort_mem (scores : List ℚ) (i : Nat) : i ∈ argsort scores ↔ i < scores.length := by
  rw [(argsort_perm scores).mem_iff, List.mem_range]

theorem argsort_sorted (scores : List ℚ) : (argsort scores).Sorted (argRel scores) :=
  List.sorted_insertionSort _ _

theorem pyLastSlice_sublist {α : Type} (l : List α) (k : Nat) : (pyLastSlice l k).Sublist l := by
  unfold pyLastSlice
  split
  · exact List.Sublist.refl l
  · exact List.drop_sublist _ l

theorem pyLastSlice_length {α : Type} (l : List α) (k : Nat) (h : 1 ≤ k) :
    (pyLastSlice l k).length = min k l.length := by
  unfold pyLastSlice
  rw [if_neg (by omega)]
  rw [List.length_drop]
  omega

theorem resultIndices_nodup (e : KYCQueryEngine) (text : List Char) (query_field : String)
    (top_n : Nat) : (resultIndices e text query_field top_n).Nodup := by
  unfold resultIndices
  rw [List.nodup_reverse]
  exact (pyLastSlice_sublist _ _).nodup (argsort_nodup _)

theorem resultIndices_mem_lt (e : KYCQueryEngine) (text : List Char) (query_field : String)
    (top_n : Nat) (i : Nat) (h : i ∈ resultIndices e text query_field top_n) :
    i < (queryScores e text query_field).length := by
  unfold resultIndices at h
  rw [List.mem_reverse] at h
  exact (argsort_mem _ _).mp ((pyLastSlice_sublist _ _).mem h)

theorem resultIndices_length (e : KYCQueryEngine) (text : List Char) (query_field : String)
    (top_n : Nat) (h : 1 ≤ top_n) :
    (resultIndices e text query_field top_n).length
      = min top_n (queryScores e text query_field).length := by
  unfold resultIndices
  rw [List.length_reverse, pyLastSlice_length _ _ h, argsort_length]

theorem resultIndices_pairwise (e : KYCQueryEngine) (text : List Char) (query_field : String)
    (top_n : Nat) :
    (resultIndices e text query_field top_n).Pairwise
      (fun a b => argRel (queryScores e text query_field) b a) := by
  unfold resultIndices
  rw [List.pairwise_reverse]
  exact List.Pairwise.sublist (pyLastSlice_sublist _ _) (argsort_sorted _)

end KYC

namespace KYC

theorem mem_alKeys_iff {β : Type} (d : List (String × β)) (k : String) :
    k ∈ alKeys d ↔ (alGet? d k).isSome = true := by
  unfold alKeys alGet?
  rw [Option.isSome_map']
  rw [List.find?_isSome]
  constructor
  · intro h
    obtain ⟨p, hp, hk⟩ := List.mem_map.mp h
    exact ⟨p, hp, by rw [beq_iff_eq]; exact hk⟩
  · rintro ⟨p, hp, hk⟩
    exact List.mem_map.mpr ⟨p, hp, beq_iff_eq.mp hk⟩

theorem renderItems_split {keys : List String} {k : String} (h : k ∈ keys) :
    ∃ pre post, renderItems keys = pre ++ quoteKey k ++ post := by
  induction keys with
  | nil => cases h
  | cons a rest ih =>
    rcases List.mem_cons.mp h with h' | h'
    · subst h'
      cases rest with
      | nil => exact ⟨[], [], by simp [renderItems]⟩
      | cons b r => exact ⟨[], (", ".toList) ++ renderItems (b :: r), by simp [renderItems]⟩
    · cases rest with
      | nil => cases h'
      | cons b r =>
        obtain ⟨pre, post, hsplit⟩ := ih h'
        exact ⟨quoteKey a ++ (", ".toList) ++ pre, post, by simp [renderItems, hsplit]⟩

theorem fieldErrMsg_split {query_field : String} {keys : List String} {k : String}
    (h : k ∈ keys) : ∃ pre post, fieldErrMsg query_field keys = pre ++ quoteKey k ++ post := by
  obtain ⟨pre, post, hsplit⟩ := renderItems_split h
  refine ⟨("Field '".toList) ++ query_field.toList
    ++ ("' is not indexed. Available fields: [".toList) ++ pre, post ++ [']'], ?_⟩
  simp [fieldErrMsg, hsplit]

theorem query_bm25_ok_of_isSome {e : KYCQueryEngine} {query_field : String}
    (text : List Char) (top_n : Nat)
    (h : (alGet? e.field_indexes query_field).isSome = true) :
    query_bm25 e text query_field top_n =
      .ok ((resultIndices e text query_field top_n).map (fun i => e.data.getD i [])) := by
  unfold query_bm25
  rw [if_pos h]

theorem query_bm25_error_of_not_isSome {e : KYCQueryEngine} {query_field : String}
    (text : List Char) (top_n : Nat)
    (h : ¬ (alGet? e.field_indexes query_field).isSome = true) :
    query_bm25 e text query_field top_n =
      .error (fieldErrMsg query_field (alKeys e.field_indexes)) := by
  unfold query_bm25
  rw [if_neg h]

theorem getD_zero_of_all_zero {l : List ℚ} (h : ∀ x ∈ l, x = 0) (i : Nat) :
    l.getD i 0 = 0 := by
  rw [List.getD_eq_getElem?_getD]
  cases hg : l[i]? with
  | none => rfl
  | some x =>
    have : x ∈ l := List.getElem?_mem hg
    simp [h x this]

theorem scoreDoc_nil (s : BM25Okapi) (i : Nat) : s.scoreDoc [] i = 0 := rfl

theorem get_scores_nil_zero (s : BM25Okapi) : ∀ x ∈ s.get_scores [], x = 0 := by
  intro x hx
  unfold BM25Okapi.get_scores at hx
  obtain ⟨i, -, hi⟩ := List.mem_map.mp hx
  rw [← hi, scoreDoc_nil]

theorem char_ngrams_nil (n : Nat) (hn : 1 ≤ n) : char_ngrams [] n = [] := by
  apply char_ngrams_eq_nil_of_lt
  simpa using hn

theorem find?_first {α : Type} {p : α → Bool} {l : List α} {r : α}
    (h : l.find? p = some r) :
    ∃ i : Nat, ∃ hi : i < l.length, l.get ⟨i, hi⟩ = r ∧ p r = true ∧
      ∀ j (hj : j < l.length), j < i → p (l.get ⟨j, hj⟩) = false := by
  induction l with
  | nil => simp at h
  | cons a rest ih =>
    rw [List.find?_cons] at h
    cases hpa : p a with
    | true =>
      rw [hpa] at h
      cases h
      exact ⟨0, by simp, rfl, hpa, fun j hj hj0 => absurd hj0 (by omega)⟩
    | false =>
      rw [hpa] at h
      obtain ⟨i, hi, hget, hp, hprev⟩ := ih h
      refine ⟨i + 1, by simpa using hi, by simpa using hget, hp, ?_⟩
      intro j hj hji
      cases j with
      | zero => simpa using hpa
      | succ j' =>
        have := hprev j' (by simpa using hj) (by omega)
        simpa using this

theorem getD_mem_of_lt {α : Type} {l : List α} {i : Nat} (d : α) (h : i < l.length) :
    l.getD i d ∈ l := by
  rw [List.getD_eq_getElem?_getD, List.getElem?_eq_getElem h]
  exact List.getElem_mem h

end KYC

namespace KYC

theorem engineInit_data2 : engineInit log0 data2 ["name"] 2 none = some engine2 := by
  norm_num +decide [engineInit, buildIndexesAux, BM25Okapi.build, buildTokCorpus, fieldCorpus,
    recordGetD, recordGet?, pyStr, char_ngrams, tokenFreqs, ndAccum, tInsert, tGet?, alInsert,
    data2, recAnn, recBob, log0, bm25_epsilon, engine2, bm25Ann, List.range, List.range.loop]

theorem engineInit_dataT : engineInit log0 dataT ["name"] 2 none = some engineT := by
  norm_num +decide [engineInit, buildIndexesAux, BM25Okapi.build, buildTokCorpus, fieldCorpus,
    recordGetD, recordGet?, pyStr, char_ngrams, tokenFreqs, ndAccum, tInsert, tGet?, alInsert,
    dataT, recT1, recT2, log0, bm25_epsilon, engineT, bm25T, List.range, List.range.loop]

theorem engineInit_rec42 : engineInit log0 [rec42] [] 2 (some "id") = some engine42 := by
  norm_num [engineInit, buildIndexesAux, engine42]

theorem engineInit_engine0 : engineInit log0 data2 [] 2 none = some engine0 := by
  norm_num [engineInit, buildIndexesAux, engine0]

theorem engineInit_engineStr : engineInit log0 [recAnn] [] 2 (some "name") = some engineStr := by
  norm_num [engineInit, buildIndexesAux, engineStr]

theorem engineInit_abc3 : engineInit logId dataAbc ["name"] 3 none = some engineAbc3 := by
  norm_num +decide [engineInit, buildIndexesAux, BM25Okapi.build, buildTokCorpus, fieldCorpus,
    recordGetD, recordGet?, pyStr, char_ngrams, tokenFreqs, ndAccum, tInsert, tGet?, alInsert,
    dataAbc, logId, bm25_epsilon, engineAbc3, bm25Abc, List.range, List.range.loop]

theorem engineInit_abc2 : engineInit logId dataAbc ["name"] 2 none = some engineAbc2 := by
  norm_num +decide [engineInit, buildIndexesAux, BM25Okapi.build, buildTokCorpus, fieldCorpus,
    recordGetD, recordGet?, pyStr, char_ngrams, tokenFreqs, ndAccum, tInsert, tGet?, alInsert,
    dataAbc, logId, bm25_epsilon, engineAbc2, bm25Abc, List.range, List.range.loop]

theorem query_engine2_empty : query_bm25 engine2 [] "name" 5 = .ok [recBob, recAnn] := by
  norm_num +decide [query_bm25, resultIndices, queryScores, argsort, argRel, pyLastSlice,
    BM25Okapi.get_scores, BM25Okapi.scoreDoc, char_ngrams, tGet?, alGet?, engine2, bm25Ann,
    data2, recAnn, recBob, bm25_k1, bm25_b, List.insertionSort, List.orderedInsert,
    List.range, List.range.loop]

theorem query_engineT_ann : query_bm25 engineT ['a', 'n', 'n'] "name" 2 = .ok [recT2, recT1] := by
  norm_num +decide [query_bm25, resultIndices, queryScores, argsort, argRel, pyLastSlice,
    BM25Okapi.get_scores, BM25Okapi.scoreDoc, char_ngrams, tGet?, alGet?, engineT, bm25T,
    dataT, recT1, recT2, bm25_k1, bm25_b, List.insertionSort, List.orderedInsert,
    List.range, List.range.loop]

theorem queryScores_abc3 : queryScores engineAbc3 ['a', 'b', 'c'] "name" = [0] := by
  norm_num +decide [queryScores, BM25Okapi.get_scores, BM25Okapi.scoreDoc, char_ngrams,
    tGet?, alGet?, engineAbc3, bm25Abc, bm25_k1, bm25_b, List.range, List.range.loop]

theorem queryScores_abc2 : queryScores engineAbc2 ['a', 'b', 'c'] "name" = [-1 / 2] := by
  norm_num +decide [queryScores, BM25Okapi.get_scores, BM25Okapi.scoreDoc, char_ngrams,
    tGet?, alGet?, engineAbc2, bm25Abc, bm25_k1, bm25_b, List.range, List.range.loop]

end KYC

namespace KYC

/-- C5: for every string `s` and positive `n`, if `len(s) ≥ n` the shingle
sequence has length `len(s) - n + 1` and its i-th element is the lowercase
substring of `s` of length `n` starting at position `i`; if `len(s) < n`
the result is empty; and shingling is case-insensitive: shingles of `s`
and of `lowercase(s)` coincide. -/
theorem C5_char_ngrams_contract (s : List Char) (n : Nat) (hn : 1 ≤ n) :
    (n ≤ s.length →
      (char_ngrams s n).length = s.length - n + 1 ∧
      ∀ i, i < s.length - n + 1 →
        (char_ngrams s n).getD i [] = ((s.map Char.toLower).drop i).take n) ∧
    (s.length < n → char_ngrams s n = []) ∧
    char_ngrams (s.map Char.toLower) n = char_ngrams s n := by
  refine ⟨?_, char_ngrams_eq_nil_of_lt s n, char_ngrams_lower s n⟩
  intro h
  refine ⟨char_ngrams_length_of_le s n h, ?_⟩
  intro i hi
  apply char_ngrams_getD
  omega

/-- Witness for C5 at the concrete inputs "AbC" (n = 2) and "a" (n = 2). -/
theorem C5_witness :
    (char_ngrams ['A', 'b', 'C'] 2).length = ['A', 'b', 'C'].length - 2 + 1 ∧
    (char_ngrams ['A', 'b', 'C'] 2).getD 1 []
      = ((['A', 'b', 'C'].map Char.toLower).drop 1).take 2 ∧
    char_ngrams ['a'] 2 = [] ∧
    char_ngrams (['A', 'b', 'C'].map Char.toLower) 2 = char_ngrams ['A', 'b', 'C'] 2 := by
  obtain ⟨h1, h2, h3⟩ := C5_char_ngrams_contract ['A', 'b', 'C'] 2 (by norm_num)
  obtain ⟨g1, g2⟩ := h1 (by norm_num)
  exact ⟨g1, g2 1 (by norm_num), (C5_char_ngrams_contract ['a'] 2 (by norm_num)).2.1
    (by norm_num), h3⟩

/-- C4: for every successfully loaded engine, indexed field and positive
`top_n`, `query_bm25` returns (no error) exactly `min top_n N` full record
payloads, in descending score order. -/
theorem C4_search_top_n_clamped_sorted {log : ℚ → ℚ} {data : List Record}
    {fields : List String} {ngram_size : Nat} {uid : Option String} {e : KYCQueryEngine}
    (he : engineInit log data fields ngram_size uid = some e) {query_field : String}
    (hf : query_field ∈ fields) (text : List Char) {top_n : Nat} (ht : 1 ≤ top_n) :
    query_bm25 e text query_field top_n =
      .ok ((resultIndices e text query_field top_n).map (fun i => e.data.getD i [])) ∧
    ((resultIndices e text query_field top_n).map (fun i => e.data.getD i [])).length
      = min top_n e.data.length ∧
    ((resultIndices e text query_field top_n).map
      (fun i => (queryScores e text query_field).getD i 0)).Pairwise (fun a b => b ≤ a) := by
  refine ⟨query_bm25_ok_of_isSome text top_n
    ((engineInit_indexed_iff he query_field).mpr hf), ?_, ?_⟩
  · rw [List.length_map, resultIndices_length _ _ _ _ ht, queryScores_length he hf text]
  · rw [List.pairwise_map]
    refine (resultIndices_pairwise e text query_field top_n).imp ?_
    intro a b hab
    rcases hab with h | ⟨h, -⟩
    · exact le_of_lt h
    · exact le_of_eq h

/-- Witness for C4 at `engine2` (2 records), query "x", top_n = 5. -/
theorem C4_witness :
    query_bm25 engine2 ['x'] "name" 5 =
      .ok ((resultIndices engine2 ['x'] "name" 5).map (fun i => engine2.data.getD i [])) ∧
    ((resultIndices engine2 ['x'] "name" 5).map (fun i => engine2.data.getD i [])).length
      = min 5 engine2.data.length ∧
    ((resultIndices engine2 ['x'] "name" 5).map
      (fun i => (queryScores engine2 ['x'] "name").getD i 0)).Pairwise (fun a b => b ≤ a) :=
  C4_search_top_n_clamped_sorted engineInit_data2 (by decide) ['x'] (by norm_num)

/-- C10: every record returned by a successful `query_bm25` call on a
loaded engine is an element of the dataset, selected at pairwise-distinct
valid indices. -/
theorem C10_search_results_distinct_members {log : ℚ → ℚ} {data : List Record}
    {fields : List String} {ngram_size : Nat} {uid : Option String} {e : KYCQueryEngine}
    (he : engineInit log data fields ngram_size uid = some e) {text : List Char}
    {query_field : String} {top_n : Nat} {res : List Record}
    (hq : query_bm25 e text query_field top_n = .ok res) :
    res = (resultIndices e text query_field top_n).map (fun i => e.data.getD i []) ∧
    (resultIndices e text query_field top_n).Nodup ∧
    (∀ i ∈ resultIndices e text query_field top_n, i < e.data.length) ∧
    (∀ r ∈ res, r ∈ e.data) := by
  by_cases hs : (alGet? e.field_indexes query_field).isSome = true
  · have hok := query_bm25_ok_of_isSome (e := e) text top_n hs
    rw [hok] at hq
    have hres : res = (resultIndices e text query_field top_n).map (fun i => e.data.getD i []) :=
      (Except.ok.injEq _ _ ▸ hq.symm : _)
    have hf : query_field ∈ fields := (engineInit_indexed_iff he query_field).mp hs
    have hlen : ∀ i ∈ resultIndices e text query_field top_n, i < e.data.length := by
      intro i hi
      have := resultIndices_mem_lt e text query_field top_n i hi
      rwa [queryScores_length he hf text] at this
    refine ⟨hres, resultIndices_nodup e text query_field top_n, hlen, ?_⟩
    intro r hr
    rw [hres] at hr
    obtain ⟨i, hi, hrei⟩ := List.mem_map.mp hr
    rw [← hrei]
    exact getD_mem_of_lt [] (hlen i hi)
  · rw [query_bm25_error_of_not_isSome text top_n hs] at hq
    exact absurd hq (by simp)

/-- Witness for C10 at `engine2` with the empty query (result: both
records, later-loaded first). -/
theorem C10_witness :
    [recBob, recAnn] = (resultIndices engine2 [] "name" 5).map (fun i => engine2.data.getD i []) ∧
    (resultIndices engine2 [] "name" 5).Nodup ∧
    recBob ∈ engine2.data ∧ recAnn ∈ engine2.data := by
  have h := C10_search_results_distinct_members engineInit_data2 query_engine2_empty
  exact ⟨h.1, h.2.1, h.2.2.2 recBob (by simp), h.2.2.2 recAnn (by simp)⟩

end KYC

namespace KYC

/-- C3 counterexample: two records whose indexed field holds the identical
text "ann" (payloads distinct) tie on score, and `query_bm25` returns them
in REVERSE load order (`recT2` before `recT1`), because the ascending
argsort suffix is reversed. The claim's promised stable order `[recT1,
recT2]` is therefore not what the code produces. -/
theorem C3_counterexample :
    engineInit log0 dataT ["name"] 2 none = some engineT ∧
    query_bm25 engineT ['a', 'n', 'n'] "name" 2 = .ok [recT2, recT1] ∧
    recT1 ≠ recT2 ∧ ([recT2, recT1] : List Record) ≠ [recT1, recT2] := by
  refine ⟨engineInit_dataT, query_engineT_ann, by decide, by decide⟩

/-- C3 amended: tie-breaking is anti-stable. Along the returned index
sequence, scores descend, and whenever two selected records have EQUAL
scores the LATER-loaded one (larger index) comes first. -/
theorem C3_amended_ties_reverse_load_order (e : KYCQueryEngine) (text : List Char)
    (query_field : String) (top_n : Nat) :
    (resultIndices e text query_field top_n).Pairwise (fun a b =>
      (queryScores e text query_field).getD b 0 < (queryScores e text query_field).getD a 0 ∨
      ((queryScores e text query_field).getD a 0 = (queryScores e text query_field).getD b 0 ∧
        b < a)) := by
  have h1 := resultIndices_pairwise e text query_field top_n
  have h2 : (resultIndices e text query_field top_n).Pairwise (fun a b => a ≠ b) :=
    resultIndices_nodup e text query_field top_n
  refine (h1.and h2).imp ?_
  rintro a b ⟨hab, hne⟩
  rcases hab with h | ⟨heq, hle⟩
  · exact Or.inl h
  · exact Or.inr ⟨heq.symm, lt_of_le_of_ne hle (fun hba => hne hba.symm)⟩

/-- Witness for C3 amended at `engineT`, query "ann", top_n = 2. -/
theorem C3_witness :
    (resultIndices engineT ['a', 'n', 'n'] "name" 2).Pairwise (fun a b =>
      (queryScores engineT ['a', 'n', 'n'] "name").getD b 0
          < (queryScores engineT ['a', 'n', 'n'] "name").getD a 0 ∨
      ((queryScores engineT ['a', 'n', 'n'] "name").getD a 0
          = (queryScores engineT ['a', 'n', 'n'] "name").getD b 0 ∧ b < a)) :=
  C3_amended_ties_reverse_load_order engineT ['a', 'n', 'n'] "name" 2

/-- C2 counterexample: on the non-empty dataset `data2` with its indexed
field "name", searching with the EMPTY query text returns both records
(all scores zero), not an empty sequence. -/
theorem C2_counterexample :
    engineInit log0 data2 ["name"] 2 none = some engine2 ∧
    query_bm25 engine2 [] "name" 5 = .ok [recBob, recAnn] ∧
    data2 ≠ [] ∧ ([recBob, recAnn] : List Record) ≠ [] := by
  exact ⟨engineInit_data2, query_engine2_empty, by decide, by decide⟩

/-- C2 amended: empty query text yields all-zero scores and `query_bm25`
still returns `min top_n N` records (never an empty sequence for a
non-empty dataset); and an engine over an EMPTY dataset with at least one
indexed field cannot even be constructed (`BM25Okapi` division by zero),
so no search on it returns at all. -/
theorem C2_amended_empty_query_returns_records :
    (∀ (log : ℚ → ℚ) (data : List Record) (fields : List String) (ngram_size : Nat)
        (uid : Option String) (e : KYCQueryEngine) (query_field : String) (top_n : Nat),
      engineInit log data fields ngram_size uid = some e → query_field ∈ fields →
      1 ≤ ngram_size → 1 ≤ top_n →
      (∀ i, (queryScores e [] query_field).getD i 0 = 0) ∧
      query_bm25 e [] query_field top_n =
        .ok ((resultIndices e [] query_field top_n).map (fun i => e.data.getD i [])) ∧
      ((resultIndices e [] query_field top_n).map (fun i => e.data.getD i [])).length
        = min top_n e.data.length) ∧
    (∀ (log : ℚ → ℚ) (f : String) (fs : List String) (ngram_size : Nat) (uid : Option String),
      engineInit log ([] : List Record) (f :: fs) ngram_size uid = none) := by
  constructor
  · intro log data fields ngram_size uid e query_field top_n he hf hn ht
    have hng : e.ngram_size = ngram_size := (engineInit_fields he).2.2.1
    have hzero : ∀ i, (queryScores e [] query_field).getD i 0 = 0 := by
      intro i
      apply getD_zero_of_all_zero
      intro x hx
      unfold queryScores at hx
      cases hidx : alGet? e.field_indexes query_field with
      | none => rw [hidx] at hx; cases hx
      | some idx =>
        rw [hidx] at hx
        rw [char_ngrams_nil e.ngram_size (by omega)] at hx
        exact get_scores_nil_zero idx x hx
    refine ⟨hzero, query_bm25_ok_of_isSome [] top_n
      ((engineInit_indexed_iff he query_field).mpr hf), ?_⟩
    rw [List.length_map, resultIndices_length _ _ _ _ ht, queryScores_length he hf []]
  · intro log f fs ngram_size uid
    simp [engineInit, buildIndexesAux, buildTokCorpus, fieldCorpus, BM25Okapi.build]

/-- Witness for C2 amended at `engine2` (non-empty dataset) and at the
empty dataset with one indexed field. -/
theorem C2_witness :
    (queryScores engine2 [] "name").getD 0 0 = 0 ∧
    query_bm25 engine2 [] "name" 5 =
      .ok ((resultIndices engine2 [] "name" 5).map (fun i => engine2.data.getD i [])) ∧
    ((resultIndices engine2 [] "name" 5).map (fun i => engine2.data.getD i [])).length
      = min 5 engine2.data.length ∧
    engineInit log0 ([] : List Record) ["name"] 2 none = none := by
  have h := C2_amended_empty_query_returns_records
  have h1 := h.1 log0 data2 ["name"] 2 none engine2 "name" 5 engineInit_data2 (by decide)
    (by norm_num) (by norm_num)
  exact ⟨h1.1 0, h1.2.1, h1.2.2, h.2 log0 "name" [] 2 none⟩

end KYC

namespace KYC

/-- C6: on a loaded engine, searching a field that is not configured
raises an error whose message enumerates (quoted, in Python list syntax)
exactly the field names that ARE indexed, while searching a configured
field never produces this error; the engine itself is a value, untouched
by either call. -/
theorem C6_field_not_indexed_error {log : ℚ → ℚ} {data : List Record}
    {fields : List String} {ngram_size : Nat} {uid : Option String} {e : KYCQueryEngine}
    (he : engineInit log data fields ngram_size uid = some e)
    (query_field : String) (text : List Char) (top_n : Nat) :
    (∀ k, k ∈ alKeys e.field_indexes ↔ k ∈ fields) ∧
    (query_field ∉ fields →
      query_bm25 e text query_field top_n =
        .error (fieldErrMsg query_field (alKeys e.field_indexes)) ∧
      ∀ k ∈ fields, ∃ pre post,
        fieldErrMsg query_field (alKeys e.field_indexes) = pre ++ quoteKey k ++ post) ∧
    (query_field ∈ fields →
      query_bm25 e text query_field top_n =
        .ok ((resultIndices e text query_field top_n).map (fun i => e.data.getD i []))) := by
  have hkeys : ∀ k, k ∈ alKeys e.field_indexes ↔ k ∈ fields := by
    intro k
    rw [mem_alKeys_iff, engineInit_indexed_iff he]
  refine ⟨hkeys, ?_, ?_⟩
  · intro hnot
    have hs : ¬ (alGet? e.field_indexes query_field).isSome = true := by
      rw [engineInit_indexed_iff he]
      exact hnot
    refine ⟨query_bm25_error_of_not_isSome text top_n hs, ?_⟩
    intro k hk
    exact fieldErrMsg_split ((hkeys k).mpr hk)
  · intro hf
    exact query_bm25_ok_of_isSome text top_n ((engineInit_indexed_iff he query_field).mpr hf)

/-- Witness for C6 at `engine2`: "address" is not indexed (error listing
"name"), "name" is (no error). -/
theorem C6_witness :
    ("name" ∈ alKeys engine2.field_indexes) ∧
    query_bm25 engine2 ['x'] "address" 3 =
      .error (fieldErrMsg "address" (alKeys engine2.field_indexes)) ∧
    query_bm25 engine2 ['x'] "name" 3 =
      .ok ((resultIndices engine2 ['x'] "name" 3).map (fun i => engine2.data.getD i [])) := by
  have h := C6_field_not_indexed_error engineInit_data2 "address" ['x'] 3
  have h2 := C6_field_not_indexed_error engineInit_data2 "name" ['x'] 3
  exact ⟨(h.1 "name").mpr (by decide), (h.2.1 (by decide)).1, h2.2.2 (by decide)⟩

/-- C7 counterexample: loading `data2` with an EMPTY set of text fields
raises no error at all (the claim demands a `ConfigurationError`): it
yields a perfectly constructed engine with an empty `field_indexes` dict. -/
theorem C7_counterexample :
    engineInit log0 data2 [] 2 none = some engine0 ∧ data2 ≠ [] ∧
    engine0.field_indexes = [] := by
  exact ⟨engineInit_engine0, by decide, rfl⟩

/-- C7 amended: `__post_init__` performs no configuration validation:
loading with empty `text_fields_to_index` always succeeds, producing an
engine with no field indexes (and any later search fails field lookup);
when a load does succeed, exactly the configured field names are indexed. -/
theorem C7_amended_no_config_validation :
    (∀ (log : ℚ → ℚ) (data : List Record) (ngram_size : Nat) (uid : Option String),
      engineInit log data [] ngram_size uid = some ⟨data, [], ngram_size, uid, []⟩) ∧
    (∀ (log : ℚ → ℚ) (data : List Record) (fields : List String) (ngram_size : Nat)
        (uid : Option String) (e : KYCQueryEngine),
      engineInit log data fields ngram_size uid = some e →
      ∀ k, (alGet? e.field_indexes k).isSome = true ↔ k ∈ fields) := by
  constructor
  · intro log data ngram_size uid
    simp [engineInit, buildIndexesAux]
  · intro log data fields ngram_size uid e he k
    exact engineInit_indexed_iff he k

/-- Witness for C7 amended: empty-fields load succeeds concretely, and on
`engine2` exactly "name" is indexed. -/
theorem C7_witness :
    engineInit log0 data2 [] 7 none = some ⟨data2, [], 7, none, []⟩ ∧
    (alGet? engine2.field_indexes "name").isSome = true := by
  have h := C7_amended_no_config_validation
  exact ⟨h.1 log0 data2 7 none,
    (h.2 log0 data2 ["name"] 2 none engine2 engineInit_data2 "name").mpr (by decide)⟩

/-- C8: `query_unique_id` raises its error exactly when the engine has no
unique-id field; with a configured key and no matching record it returns
the defined not-found result `None`, not an error. -/
theorem C8_lookup_error_iff_no_key (e : KYCQueryEngine) (v : List Char) :
    ((∃ msg, query_unique_id e v = .error msg) ↔ e.unique_id_field = none) ∧
    (query_unique_id e v = .error uidErrMsg ↔ e.unique_id_field = none) ∧
    (∀ f, e.unique_id_field = some f →
      (∀ r ∈ e.data, valueEqStr (recordGet? r f) v = false) →
      query_unique_id e v = .ok none) := by
  refine ⟨?_, ?_, ?_⟩
  · cases hu : e.unique_id_field <;> simp [query_unique_id, hu]
  · cases hu : e.unique_id_field <;> simp [query_unique_id, hu]
  · intro f hf hall
    have hnone : e.data.find? (fun r => valueEqStr (recordGet? r f) v) = none := by
      rw [List.find?_eq_none]
      intro r hr
      rw [hall r hr]
      exact Bool.false_ne_true
    simp [query_unique_id, hf, hnone]

/-- Witness for C8: `engine0` (no key configured) errors; `engine42`
(key "id", value 42 never equal to the string "zz") returns `None`. -/
theorem C8_witness :
    query_unique_id engine0 ['z'] = .error uidErrMsg ∧
    query_unique_id engine42 ['z', 'z'] = .ok none := by
  refine ⟨?_, ?_⟩
  · exact (C8_lookup_error_iff_no_key engine0 ['z']).2.1.mpr rfl
  · exact (C8_lookup_error_iff_no_key engine42 ['z', 'z']).2.2 "id" rfl (by decide)

end KYC

namespace KYC

/-- C9 counterexample: the record's key field holds the INTEGER 42; its
stringified value is "42", so the spec's stringified-comparison lookup
finds it, but the code compares raw values (`42 == "42"` is false in
Python) and returns `None`. -/
theorem C9_counterexample :
    engineInit log0 [rec42] [] 2 (some "id") = some engine42 ∧
    query_unique_id engine42 ['4', '2'] = .ok none ∧
    specLookupStringified [rec42] "id" ['4', '2'] = some rec42 := by
  refine ⟨engineInit_rec42, ?_, by decide⟩
  have : ([rec42] : List Record).find? (fun r => valueEqStr (recordGet? r "id") ['4', '2'])
      = none := by decide
  simp [query_unique_id, engine42, this]

/-- C9 amended: with a configured unique-id field, `query_unique_id` scans
records in load order comparing the RAW (un-stringified) field value
against the key string — only a string-valued field with identical content
matches — and returns the first match (earlier-loaded record wins). -/
theorem C9_amended_first_raw_match (e : KYCQueryEngine) (f : String) (v : List Char)
    (hf : e.unique_id_field = some f) :
    query_unique_id e v = .ok (e.data.find? (fun r => valueEqStr (recordGet? r f) v)) ∧
    ∀ r, e.data.find? (fun r => valueEqStr (recordGet? r f) v) = some r →
      r ∈ e.data ∧ valueEqStr (recordGet? r f) v = true ∧
      ∃ i, ∃ hi : i < e.data.length, e.data.get ⟨i, hi⟩ = r ∧
        ∀ j, ∀ hj : j < e.data.length, j < i →
          valueEqStr (recordGet? (e.data.get ⟨j, hj⟩) f) v = false := by
  constructor
  · simp [query_unique_id, hf]
  · intro r hr
    refine ⟨List.mem_of_find?_eq_some hr,
      List.find?_some (p := fun r => valueEqStr (recordGet? r f) v) hr, ?_⟩
    obtain ⟨i, hi, hget, -, hprev⟩ := find?_first hr
    exact ⟨i, hi, hget, hprev⟩

/-- Witness for C9 amended at `engineStr` (string key "ann", which the raw
comparison does match) and its first-match facts. -/
theorem C9_witness :
    query_unique_id engineStr ['a', 'n', 'n'] =
      .ok (engineStr.data.find? (fun r => valueEqStr (recordGet? r "name") ['a', 'n', 'n'])) ∧
    recAnn ∈ engineStr.data ∧
    valueEqStr (recordGet? recAnn "name") ['a', 'n', 'n'] = true := by
  have h := C9_amended_first_raw_match engineStr "name" ['a', 'n', 'n'] rfl
  have h2 := h.2 recAnn (by decide)
  exact ⟨h.1, h2.1, h2.2.1⟩

/-- C1 (bug demonstration): the engine configured with `ngram_size = 3`
still tokenizes its corpus with the HARDCODED shingle length 2 of
`__post_init__` — its stored index has the length-2 shingles "ab", "bc"
for the text "abc" — while `query_bm25` tokenizes the query with length 3,
so querying a record's exact text scores 0; the same engine built with the
matching `ngram_size = 2` gives that query a nonzero score. -/
theorem C1_build_vs_query_ngram_mismatch :
    engineInit logId dataAbc ["name"] 3 none = some engineAbc3 ∧
    engineAbc3.ngram_size = 3 ∧
    buildTokCorpus dataAbc "name" = [[['a', 'b'], ['b', 'c']]] ∧
    char_ngrams ['a', 'b', 'c'] engineAbc3.ngram_size = [['a', 'b', 'c']] ∧
    char_ngrams ['a', 'b', 'c'] engineAbc3.ngram_size ≠ [['a', 'b'], ['b', 'c']] ∧
    queryScores engineAbc3 ['a', 'b', 'c'] "name" = [0] ∧
    engineInit logId dataAbc ["name"] 2 none = some engineAbc2 ∧
    queryScores engineAbc2 ['a', 'b', 'c'] "name" = [-1 / 2] ∧
    (-1 / 2 : ℚ) ≠ 0 := by
  refine ⟨engineInit_abc3, rfl, ?_, by decide, by decide, queryScores_abc3,
    engineInit_abc2, queryScores_abc2, by norm_num⟩
  decide

end KYC
